import Mathlib

/-!
Verification of the Quantum ESPRESSO log parser
(`tilde/parsers/QuantumESPRESSO/QuantumESPRESSO.py`).

The parser is embedded shallowly:
* a log file is a list of lines, each line a list of characters (`PyStr`);
* Python string primitives (`split`, `strip`, `find`, slicing, `replace`,
  substring membership) are modelled by executable functions over `List Char`
  with Python-2 semantics (the source predates Python 3: `map` is eager);
* floating point numbers are modelled by exact rationals, with `pyFloat`
  standing for Python's `float()` conversion on the decimal literals the
  parser reads;
* fallible Python operations (IndexError on list indexing, ValueError from
  `float()`/`strptime`/numpy broadcasting, AttributeError from attribute
  access on `None` or on a numpy array, TypeError from `list * float`,
  KeyError from unknown chemical symbols, LinAlgError from singular cells)
  are modelled in `Except Err`.
-/

attribute [local semireducible] Rat.add Rat.mul Rat.sub Rat.inv Rat.ofScientific

/-- A Python string, as its list of characters. -/
abbrev PyStr := List Char

/-- Errors a parse run can surface or that the surrounding system defines.
`unrecognizedFormat` is the detector-level failure of the spec's taxonomy;
the remaining constructors model Python runtime exceptions. -/
inductive Err where
  | indexError
  | valueError
  | attrError
  | typeError
  | keyError
  | linAlgError
  | unrecognizedFormat
deriving DecidableEq

/-- Auxiliary for `pySplitOn`: split at occurrences of the separator
`sc :: sr`, accumulating the current fragment reversed in `acc`.  The first
argument is recursion fuel (the caller passes the string's length, which
suffices since every step consumes at least one character); the fuel-zero
fallback is unreachable from `pySplitOn`. -/
def splitOnAux (sc : Char) (sr : PyStr) : Nat → PyStr → PyStr → List PyStr
  | _, [], acc => [acc.reverse]
  | 0, s, acc => [acc.reverse ++ s]
  | fuel + 1, c :: rest, acc =>
    if c == sc && sr.isPrefixOf rest then
      acc.reverse :: splitOnAux sc sr fuel (rest.drop sr.length) []
    else
      splitOnAux sc sr fuel rest (c :: acc)

/-- Python `s.split(sep)` for a non-empty separator (splits on every
non-overlapping occurrence, left to right). -/
def pySplitOn (sep : PyStr) (s : PyStr) : List PyStr :=
  match sep with
  | [] => [s]
  | c :: r => splitOnAux c r s.length s []

/-- Auxiliary for `pySplitWs`. -/
def pySplitWsAux : PyStr → PyStr → List PyStr
  | [], acc => [acc.reverse]
  | c :: t, acc =>
    if c.isWhitespace then acc.reverse :: pySplitWsAux t []
    else pySplitWsAux t (c :: acc)

/-- Python `s.split()` with no argument: split on whitespace runs and drop
empty fragments. -/
def pySplitWs (s : PyStr) : List PyStr :=
  (pySplitWsAux s []).filter (fun t => !t.isEmpty)

/-- Python `sub in s` (substring membership). -/
def pyContains (sub : PyStr) : PyStr → Bool
  | [] => sub.isEmpty
  | c :: t => sub.isPrefixOf (c :: t) || pyContains sub t

/-- Auxiliary for `pyFind`. -/
def pyFindAux (sub : PyStr) : PyStr → Nat → Int
  | [], i => if sub.isEmpty then (i : Int) else -1
  | c :: t, i => if sub.isPrefixOf (c :: t) then (i : Int) else pyFindAux sub t (i + 1)

/-- Python `s.find(sub)`: index of the first occurrence, or `-1`. -/
def pyFind (sub s : PyStr) : Int := pyFindAux sub s 0

/-- Auxiliary for `pyRFindChar`. -/
def pyRFindCharAux (c : Char) : PyStr → Int → Int → Int
  | [], _, best => best
  | x :: t, i, best => pyRFindCharAux c t (i + 1) (if x == c then i else best)

/-- Python `s.rfind(c)` for a single character: index of the last
occurrence, or `-1`. -/
def pyRFindChar (c : Char) (s : PyStr) : Int := pyRFindCharAux c s 0 (-1)

/-- Normalize a (possibly negative) Python slice index against a length. -/
def pyNormIdx (n : Nat) (i : Int) : Nat :=
  if i < 0 then ((n : Int) + i).toNat else min n i.toNat

/-- Python slice `l[a:b]` with full negative-index and clamping semantics. -/
def pySlice (l : List α) (a b : Int) : List α :=
  let x := pyNormIdx l.length a
  let y := pyNormIdx l.length b
  (l.drop x).take (y - x)

/-- Python slice `l[:b]`. -/
def pySliceTo (l : List α) (b : Int) : List α := pySlice l 0 b

/-- Python `s.strip(cs)`: remove characters of `cs` from both ends. -/
def pyStrip (cs : PyStr) (s : PyStr) : PyStr :=
  ((s.dropWhile (fun c => cs.contains c)).reverse.dropWhile
    (fun c => cs.contains c)).reverse

/-- Python `s.strip()` with no argument: strip whitespace from both ends. -/
def pyStripWs (s : PyStr) : PyStr :=
  ((s.dropWhile Char.isWhitespace).reverse.dropWhile Char.isWhitespace).reverse

/-- Python `s.lower()` (ASCII case only, which covers the parser's inputs). -/
def pyLower (s : PyStr) : PyStr := s.map Char.toLower

/-- Python `s.replace(old, new)` for a non-empty `old`: replace every
non-overlapping occurrence. -/
def pyReplace (old new s : PyStr) : PyStr :=
  List.intercalate new (pySplitOn old s)

/-- Numeric value of a digit string. -/
def digitsToNat (s : PyStr) : Nat :=
  s.foldl (fun a c => a * 10 + (c.toNat - 48)) 0

/-- Python `float(s)` on decimal literals (optional sign, integer part,
fractional part, optional exponent), as an exact rational.  Returns `none`
where Python raises `ValueError`.  The special spellings `inf`/`nan`, which
never occur in the logs this parser reads, are not modelled. -/
def pyFloat (s : PyStr) : Option ℚ :=
  let sgnStr : ℚ × PyStr :=
    match s with
    | c :: t =>
      if c == '-' then (-1, t) else if c == '+' then (1, t) else (1, s)
    | [] => (1, s)
  let sgn := sgnStr.1
  let s1 := sgnStr.2
  let ip := s1.takeWhile Char.isDigit
  let s2 := s1.drop ip.length
  let fpRest : PyStr × PyStr :=
    match s2 with
    | c :: t =>
      if c == '.' then (t.takeWhile Char.isDigit, t.drop (t.takeWhile Char.isDigit).length)
      else ([], s2)
    | [] => ([], s2)
  let fp := fpRest.1
  let s3 := fpRest.2
  if ip.isEmpty && fp.isEmpty then none
  else
    let base : ℚ := (digitsToNat ip : ℚ) + (digitsToNat fp : ℚ) / ((10 : ℚ) ^ fp.length)
    match s3 with
    | [] => some (sgn * base)
    | e :: t =>
      if e == 'e' || e == 'E' then
        let esgnStr : Bool × PyStr :=
          match t with
          | c :: u =>
            if c == '-' then (true, u) else if c == '+' then (false, u) else (false, t)
          | [] => (false, t)
        let eneg := esgnStr.1
        let t1 := esgnStr.2
        let ed := t1.takeWhile Char.isDigit
        if ed.isEmpty || !(t1.drop ed.length).isEmpty then none
        else
          let m := digitsToNat ed
          some (sgn * (if eneg then base / (10 : ℚ) ^ m else base * (10 : ℚ) ^ m))
      else none

/-- Python list indexing `l[i]` for a non-negative index (IndexError when
out of range). -/
def getE (l : List α) (i : Nat) : Except Err α :=
  match l.get? i with
  | some x => .ok x
  | none => .error Err.indexError

/-- Python `float(t)` as an `Except` (ValueError on failure). -/
def floatE (t : PyStr) : Except Err ℚ :=
  match pyFloat t with
  | some q => .ok q
  | none => .error Err.valueError

/-- Python list indexing `l[i]` with negative-index semantics
(IndexError when out of range, as in `l[-2]` on a short list). -/
def getIntE (l : List α) (i : Int) : Except Err α :=
  let j := if i < 0 then (l.length : Int) + i else i
  if h : 0 ≤ j ∧ j.toNat < l.length then .ok (l.get ⟨j.toNat, h.2⟩)
  else .error Err.indexError

/-- `ase.units.Bohr` (external dependency): the atomic length unit in
Angstrom.  The source only uses it as a fixed non-zero scale factor, so it
is embedded as an exact rational approximation of the library constant. -/
def Bohr : ℚ := 529177/1000000

/-- `ase.units.Rydberg` (external dependency): the Rydberg energy in eV,
embedded as an exact rational approximation of the library constant. -/
def Rydberg : ℚ := 13605693/1000000

/-- `ase.data.chemical_symbols` (external dependency): the recognized
chemical element symbols, with the placeholder at index 0. -/
def chemical_symbols : List PyStr :=
  ([ "X", "H", "He", "Li", "Be", "B", "C", "N", "O", "F", "Ne",
     "Na", "Mg", "Al", "Si", "P", "S", "Cl", "Ar", "K", "Ca",
     "Sc", "Ti", "V", "Cr", "Mn", "Fe", "Co", "Ni", "Cu", "Zn",
     "Ga", "Ge", "As", "Se", "Br", "Kr", "Rb", "Sr", "Y", "Zr",
     "Nb", "Mo", "Tc", "Ru", "Rh", "Pd", "Ag", "Cd", "In", "Sn",
     "Sb", "Te", "I", "Xe", "Cs", "Ba", "La", "Ce", "Pr", "Nd",
     "Pm", "Sm", "Eu", "Gd", "Tb", "Dy", "Ho", "Er", "Tm", "Yb",
     "Lu", "Hf", "Ta", "W", "Re", "Os", "Ir", "Pt", "Au", "Hg",
     "Tl", "Pb", "Bi", "Po", "At", "Rn", "Fr", "Ra", "Ac", "Th",
     "Pa", "U", "Np", "Pu", "Am", "Cm", "Bk", "Cf", "Es", "Fm",
     "Md", "No", "Lr", "Rf", "Db", "Sg", "Bh", "Hs", "Mt", "Ds",
     "Rg", "Cn", "Nh", "Fl", "Mc", "Lv", "Ts", "Og" ]).map (fun s => s.toList)

/-- One entry of the functional lookup table (`xc_internal_map`): canonical
display name, category tags, recognized composite-setup strings. -/
structure XCEntry where
  name : PyStr
  type : List PyStr
  setup : List PyStr
deriving DecidableEq

/-- Builds an `xc_internal_map` entry from string literals. -/
def xcE (name : String) (type : List String) (setup : List String) : XCEntry :=
  ⟨name.toList, type.map (fun s => s.toList), setup.map (fun s => s.toList)⟩

/-- The static functional lookup table `xc_internal_map` (source lines
30–71), in source order. -/
def xc_internal_map : List (PyStr × XCEntry) :=
  [ (("pw").toList, xcE "PW_LDA" ["LDA"] ["sla+pw+nogx+nogc"]),
    (("pz").toList, xcE "PZ_LDA" ["LDA"] ["sla+pz+nogx+nogc"]),
    (("bp").toList, xcE "Becke-Perdew grad.corr." ["GGA"] ["b88+p86+nogx+nogc"]),
    (("pw91").toList, xcE "PW91" ["GGA"] ["sla+pw+ggx+ggc"]),
    (("blyp").toList, xcE "BLYP" ["GGA"] ["sla+b88+lyp+blyp"]),
    (("pbe").toList, xcE "PBE" ["GGA"] ["sla+pw+pbx+pbc", "sla+pw+pbe+pbe"]),
    (("revpbe").toList, xcE "revPBE" ["GGA"] ["sla+pw+rpb+pbc", "sla+pw+rpb+pbe"]),
    (("pw86pbe").toList, xcE "PW86+PBE" ["GGA"] ["sla+pw+pw86+pbc", "sla+pw+pw86+pbe"]),
    (("b86bpbe").toList, xcE "B86b+PBE" ["GGA"] ["sla+pw+b86b+pbc", "sla+pw+b86b+pbe"]),
    (("pbesol").toList, xcE "PBEsol" ["GGA"] ["sla+pw+psx+psc"]),
    (("q2d").toList, xcE "PBEQ2D" ["GGA"] ["sla+pw+q2dx+q2dc"]),
    (("hcth").toList, xcE "HCTH/120" ["GGA"] ["nox+noc+hcth+hcth"]),
    (("olyp").toList, xcE "OLYP" ["GGA"] ["nox+lyp+optx+blyp"]),
    (("wc").toList, xcE "Wu-Cohen" ["GGA"] ["sla+pw+wcx+pbc", "sla+pw+wcx+pbe"]),
    (("sogga").toList, xcE "SOGGA" ["GGA"] ["sla+pw+sox+pbc", "sla+pw+sox+pbe"]),
    (("optbk88").toList, xcE "optB88" ["GGA"] ["sla+pw+obk8+p86"]),
    (("optb86b").toList, xcE "optB86" ["GGA"] ["sla+pw+ob86+p86"]),
    (("ev93").toList, xcE "Engel-Vosko" ["GGA"] ["sla+pw+evx+nogc"]),
    (("tpss").toList, xcE "TPSS" ["meta-GGA"] ["sla+pw+tpss+tpss"]),
    (("m06l").toList, xcE "M06L" ["meta-GGA"] ["nox+noc+m6lx+m6lc"]),
    (("tb09").toList, xcE "TB09" ["meta-GGA"] ["sla+pw+tb09+tb09"]),
    (("pbe0").toList, xcE "PBE0" ["GGA", "hybrid"] ["pb0x+pw+pb0x+pbc", "pb0x+pw+pb0x+pbe"]),
    (("hse").toList, xcE "HSE06" ["GGA", "hybrid"] ["sla+pw+hse+pbc", "sla+pw+hse+pbe"]),
    (("b3lyp").toList, xcE "B3LYP" ["GGA", "hybrid"] ["b3lp+vwn+b3lp+b3lp"]),
    (("gaupbe").toList, xcE "Gau-PBE" ["GGA", "hybrid"] ["sla+pw+gaup+pbc", "sla+pw+gaup+pbe"]),
    (("vdw-df").toList, xcE "vdW-DF" ["GGA", "vdW"] ["sla+pw+rpb+vdw1"]),
    (("vdw-df2").toList, xcE "vdW-DF2" ["GGA", "vdW"] ["sla+pw+rw86+vdw2"]),
    (("vdw-df-c09").toList, xcE "vdW-DF-C09" ["GGA", "vdW"] ["sla+pw+c09x+vdw1"]),
    (("vdw-df2-c09").toList, xcE "vdW-DF2-C09" ["GGA", "vdW"] ["sla+pw+c09x+vdw2"]),
    (("vdw-df-cx").toList, xcE "vdW-DF-cx" ["GGA", "vdW"] ["sla+pw+cx13+vdW1"]),
    (("vdw-df-obk8").toList, xcE "vdW-DF-obk8" ["GGA", "vdW"] ["sla+pw+obk8+vdw1"]),
    (("vdw-df-ob86").toList, xcE "vdW-DF-ob86" ["GGA", "vdW"] ["sla+pw+ob86+vdw1"]),
    (("vdw-df2-b86r").toList, xcE "vdW-DF2-B86R" ["GGA", "vdW"] ["sla+pw+b86r+vdw2"]),
    (("rvv10").toList, xcE "rVV10" ["GGA", "vdW"] ["sla+pw+rw86+pbc+vv10", "sla+pw+rw86+pbe+vv10"]),
    (("hf").toList, xcE "Hartree-Fock" ["HF"] ["hf+noc+nogx+nogc"]),
    (("vdw-df3").toList, xcE "vdW-DF3" ["GGA", "vdW"] ["sla+pw+rw86+vdw3"]),
    (("vdw-df4").toList, xcE "vdW-DF4" ["GGA", "vdW"] ["sla+pw+rw86+vdw4"]),
    (("gaup").toList, xcE "Gau-PBE" ["GGA", "hybrid"] ["sla+pw+gaup+pbc", "sla+pw+gaup+pbe"]) ]

/-- An `ase.Atoms` object as the parser uses it: chemical symbols, Cartesian
positions (rows) and a 3x3 cell matrix (rows are lattice vectors).  The
constant periodicity flags `pbc=(1,1,1)` carry no information and are not
recorded. -/
structure Atoms where
  symbols : List PyStr
  positions : List (List ℚ)
  cell : List (List ℚ)
deriving DecidableEq

/-- Matrix entry with numpy-style defaulting (only used on 3x3 data). -/
def mGet (m : List (List ℚ)) (i j : Nat) : ℚ := (m.getD i []).getD j 0

/-- Product of a row-matrix with a 3x3 matrix (`a @ m` in numpy). -/
def matMul3 (a m : List (List ℚ)) : List (List ℚ) :=
  a.map (fun row =>
    (List.range 3).map (fun j =>
      (List.range 3).foldl (fun acc k => acc + row.getD k 0 * mGet m k j) 0))

/-- Determinant of a 3x3 matrix. -/
def det3 (m : List (List ℚ)) : ℚ :=
  mGet m 0 0 * (mGet m 1 1 * mGet m 2 2 - mGet m 1 2 * mGet m 2 1)
  - mGet m 0 1 * (mGet m 1 0 * mGet m 2 2 - mGet m 1 2 * mGet m 2 0)
  + mGet m 0 2 * (mGet m 1 0 * mGet m 2 1 - mGet m 1 1 * mGet m 2 0)

/-- Inverse of a 3x3 matrix via the adjugate; `none` when singular (numpy
raises `LinAlgError` there). -/
def inv3 (m : List (List ℚ)) : Option (List (List ℚ)) :=
  let d := det3 m
  if d = 0 then none
  else some
    [ [ (mGet m 1 1 * mGet m 2 2 - mGet m 1 2 * mGet m 2 1) / d,
        (mGet m 0 2 * mGet m 2 1 - mGet m 0 1 * mGet m 2 2) / d,
        (mGet m 0 1 * mGet m 1 2 - mGet m 0 2 * mGet m 1 1) / d ],
      [ (mGet m 1 2 * mGet m 2 0 - mGet m 1 0 * mGet m 2 2) / d,
        (mGet m 0 0 * mGet m 2 2 - mGet m 0 2 * mGet m 2 0) / d,
        (mGet m 0 2 * mGet m 1 0 - mGet m 0 0 * mGet m 1 2) / d ],
      [ (mGet m 1 0 * mGet m 2 1 - mGet m 1 1 * mGet m 2 0) / d,
        (mGet m 0 1 * mGet m 2 0 - mGet m 0 0 * mGet m 2 1) / d,
        (mGet m 0 0 * mGet m 1 1 - mGet m 0 1 * mGet m 1 0) / d ] ]

/-- `ase.Atoms(symbols, positions, cell=..., pbc=(1,1,1))`: construction
validates the symbols against `chemical_symbols` (KeyError otherwise) and
the array shapes (ValueError otherwise). -/
def mkAtoms (syms : List PyStr) (pos : List (List ℚ)) (cell : List (List ℚ)) :
    Except Err Atoms :=
  if !(syms.all (fun s => chemical_symbols.contains s)) then .error Err.keyError
  else if !(pos.length == syms.length && pos.all (fun r => r.length == 3)) then
    .error Err.valueError
  else if !(cell.length == 3 && cell.all (fun r => r.length == 3)) then
    .error Err.valueError
  else .ok ⟨syms, pos, cell⟩

/-- `Atoms.set_positions` (shape-checked in-place overwrite). -/
def set_positions (a : Atoms) (p : List (List ℚ)) : Except Err Atoms :=
  if p.length == a.symbols.length && p.all (fun r => r.length == 3) then
    .ok { a with positions := p }
  else .error Err.valueError

/-- `Atoms.set_scaled_positions`: interpret the rows as fractional
coordinates of the current cell (`cartesian = fractional @ cell`). -/
def set_scaled_positions (a : Atoms) (p : List (List ℚ)) : Except Err Atoms :=
  if p.length == a.symbols.length && p.all (fun r => r.length == 3) then
    .ok { a with positions := matMul3 p a.cell }
  else .error Err.valueError

/-- `Atoms.set_cell(newcell, scale_atoms=True)`: replace the cell and
linearly rescale the positions so fractional coordinates are preserved
(`new = old @ inv(oldcell) @ newcell`); `LinAlgError` on a singular old
cell. -/
def set_cell (a : Atoms) (nc : List (List ℚ)) : Except Err Atoms :=
  if nc.length == 3 && nc.all (fun r => r.length == 3) then
    match inv3 a.cell with
    | none => .error Err.linAlgError
    | some ci => .ok { a with cell := nc, positions := matMul3 (matMul3 a.positions ci) nc }
  else .error Err.valueError

/-- The extractor's running state during the line scan: the record fields
it fills plus the scratch buffers of `QuantumESPRESSO.__init__` (source
line 74).  Modelled from the spec: the `Output` base class (not under
`src/`) starts the record with empty containers and unset optional fields;
`finished := -1` is set by the extractor itself (source line 26).
`cellIsArray`/`posFinal` record whether `cell_data`/`pos_data` still hold
the initial Python list or a numpy array (the distinction is observable:
lists support `append` but not `list * float`, arrays vice versa). -/
structure St where
  finished : Int := -1
  prog : Option PyStr := none
  energy : Option ℚ := none
  H : Option PyStr := none
  H_types : List PyStr := []
  duration : Option ℚ := none
  alat : ℚ := 0
  cellData : List (List ℚ) := []
  cellIsArray : Bool := false
  posData : List (List ℚ) := []
  posFinal : Bool := false
  symbolData : List PyStr := []
  atomic : Option Atoms := none
deriving DecidableEq

/-- The record a successful parse returns (the populated subset of the
base record's fields). -/
structure ParsedRecord where
  finished : Int
  prog : Option PyStr
  energy : Option ℚ
  H : Option PyStr
  H_types : List PyStr
  duration : Option ℚ
  structures : List Atoms
  related_files : List PyStr
deriving DecidableEq

/-- Python truthiness of `self.info` fields holding a string (`''` and an
unset field are falsy). -/
def truthy : Option PyStr → Bool
  | none => false
  | some s => !s.isEmpty

/-- Version-banner handler (source lines 82–86): strip the line, delete
every occurrence of the program name, cut before the `" starts "` marker,
strip again, drop a leading `"v."`, and prepend the framework name. -/
def progOf (cur : PyStr) : PyStr :=
  let v0 := pyStripWs cur
  let v1 := pyReplace (("Program PWSCF").toList) [] v0
  let v2 := pySliceTo v1 (pyFind ((" starts ").toList) v1)
  let v3 := pyStripWs v2
  let v4 := if (("v.").toList).isPrefixOf v3 then v3.drop 2 else v3
  (("Quantum ESPRESSO ").toList) ++ v4

/-- `celldm` handler (source lines 88–91): on first occurrence parse the
second whitespace token and convert from Bohr; a zero result is replaced
by 1. -/
def celldmStep (cur : PyStr) (s : St) : Except Err St :=
  if s.alat ≠ 0 then .ok s
  else do
    let t ← getE (pySplitWs cur) 1
    let v ← floatE t
    let a := v * Bohr
    .ok { s with alat := if a = 0 then 1 else a }

/-- Crystal-axes handler (source lines 93–95): take tokens 4–6 of the next
three lines (Python slice semantics clamp a short tail) as the raw cell
matrix. -/
def axesStep (data : List PyStr) (n : Nat) (s : St) : Except Err St := do
  let raw := (pySlice data (n + 1) (n + 4)).map (fun x => pySlice (pySplitWs x) 3 6)
  let rows ← raw.mapM (fun r => r.mapM floatE)
  .ok { s with cellData := rows, cellIsArray := true }

/-- Atom-label normalization as written inline at source lines 105–106:
`next_line[1].strip('0123456789').split('_')[0]`, then drop the final
character when the result is not a recognized element and is longer than
one character. -/
def symbolOf (tok : PyStr) : PyStr :=
  let s1 := pyStrip (("0123456789").toList) tok
  let s2 := (pySplitOn (("_").toList) s1).headD []
  if !(chemical_symbols.contains s2) && s2.length > 1 then s2.dropLast else s2

/-- The `while True` lookahead of the atomic-site handler (source lines
100–107): read lines from index `m` until an empty split, collecting
coordinate triples (tokens `[-4:-1]`) and normalized symbols (token 1).
When `pos_data` is already a numpy array (`posFinal`), the `append` raises
AttributeError; reading past the end of the file raises IndexError.  The
first `Nat` is recursion fuel, passed as `data.length - m` by the caller,
so fuel running out coincides exactly with reading past the end. -/
def siteLoop (data : List PyStr) (posFinal : Bool) :
    Nat → Nat → List (List ℚ) → List PyStr → Except Err (List (List ℚ) × List PyStr)
  | 0, _, _, _ => .error Err.indexError
  | fuel + 1, m, pos, syms =>
    if h : m < data.length then
      let tk := pySplitWs (data.get ⟨m, h⟩)
      if tk.isEmpty then .ok (pos, syms)
      else if posFinal then .error Err.attrError
      else do
        let coords ← (pySlice tk (-4) (-1)).mapM floatE
        let t1 ← getE tk 1
        siteLoop data posFinal fuel (m + 1) (pos ++ [coords]) (syms ++ [symbolOf t1])
    else .error Err.indexError

/-- Atomic-site handler (source lines 97–109): skipped whenever
`len(pos_data)` is non-zero; otherwise consume the table, scale positions
and cell by `alat` (TypeError when `cell_data` is still the initial Python
list) and build the `Atoms` structure. -/
def siteStep (data : List PyStr) (n : Nat) (s : St) : Except Err St :=
  if s.posData.length ≠ 0 then .ok s
  else do
    let ps ← siteLoop data s.posFinal (data.length - (n + 1)) (n + 1) s.posData s.symbolData
    let pos := ps.1.map (fun r => r.map (fun q => q * s.alat))
    let cellScaled ←
      if s.cellIsArray then
        Except.ok (s.cellData.map (fun r => r.map (fun q => q * s.alat)))
      else Except.error Err.typeError
    let atoms ← mkAtoms ps.2 pos cellScaled
    .ok { s with posData := pos, symbolData := ps.2, posFinal := true,
                 atomic := some atoms }

/-- numpy slice assignment `row[:] = vals`: exact length match or a length-1
broadcast; anything else raises ValueError. -/
def rowAssign (row vals : List ℚ) : Except Err (List ℚ) :=
  if vals.length == row.length then .ok vals
  else if vals.length == 1 then .ok (List.replicate row.length (vals.headD 0))
  else .error Err.valueError

/-- The bounded `for i in range(3)` lookahead of the CELL_PARAMETERS
handler (source lines 112–116): returns the (possibly partially
overwritten) cell buffer and whether all three rows were consumed (the
`for`/`else` flag).  Rows already read mutate `cell_data` in place before
a short block is detected.  The first `Nat` counts the remaining loop
iterations (`3 - i`, started at 3), making the recursion structural. -/
def cpLoop (data : List PyStr) (n : Nat) :
    Nat → Nat → List (List ℚ) → Except Err (List (List ℚ) × Bool)
  | 0, _, cell => .ok (cell, true)
  | j + 1, i, cell =>
    if h : n + 1 + i < data.length then
      let tk := pySplitWs (data.get ⟨n + 1 + i, h⟩)
      if tk.isEmpty then .ok (cell, false)
      else do
        let vals ← tk.mapM floatE
        let row ← getE cell i
        let newRow ← rowAssign row vals
        cpLoop data n j (i + 1) (cell.set i newRow)
    else .error Err.indexError

/-- CELL_PARAMETERS handler (source lines 111–121): run the row loop; only
when all three rows were read (`for`/`else`) determine the unit multiplier
and apply `set_cell` with atom rescaling (AttributeError when no structure
exists yet). -/
def cpStep (data : List PyStr) (n : Nat) (cur : PyStr) (s : St) : Except Err St := do
  let cb ← cpLoop data n 3 0 s.cellData
  if cb.2 then
    let mult :=
      if pyContains (("bohr").toList) cur then Bohr
      else if pyContains (("alat").toList) cur then s.alat
      else 1
    match s.atomic with
    | none => .error Err.attrError
    | some a => do
      let a2 ← set_cell a (cb.1.map (fun r => r.map (fun q => q * mult)))
      .ok { s with cellData := cb.1, atomic := some a2 }
  else .ok { s with cellData := cb.1 }

/-- The `for i in range(len(pos_data))` lookahead of the ATOMIC_POSITIONS
handler (source lines 125–128): overwrite row `i` of `pos_data` in place
with tokens `[1:4]` of the next line.  The first `Nat` counts the
remaining iterations (started at `len(pos_data)`, the row count captured
at loop entry), making the recursion structural. -/
def apLoop (data : List PyStr) (n : Nat) :
    Nat → Nat → List (List ℚ) → Except Err (List (List ℚ))
  | 0, _, pos => .ok pos
  | j + 1, i, pos =>
    if h : n + 1 + i < data.length then do
      let tk := pySplitWs (data.get ⟨n + 1 + i, h⟩)
      let vals ← (pySlice tk 1 4).mapM floatE
      let row ← getE pos i
      let newRow ← rowAssign row vals
      apLoop data n j (i + 1) (pos.set i newRow)
    else .error Err.indexError

/-- The coordinate-qualifier dispatch of the ATOMIC_POSITIONS handler
(source lines 131–138): `alat)`, `bohr)`, `angstrom)`, or the fractional
default. -/
def applyCoords (a : Atoms) (coord_flag : PyStr) (alat : ℚ)
    (pos : List (List ℚ)) : Except Err Atoms :=
  if coord_flag == (("alat)").toList) then
    set_positions a (pos.map (fun r => r.map (fun q => q * alat)))
  else if coord_flag == (("bohr)").toList) then
    set_positions a (pos.map (fun r => r.map (fun q => q * Bohr)))
  else if coord_flag == (("angstrom)").toList) then
    set_positions a pos
  else
    set_scaled_positions a pos

/-- ATOMIC_POSITIONS handler (source lines 123–138): read the coordinate
qualifier after the last `'('`, consume as many lines as atoms are known
(mutating `pos_data` rows in place), then — unless no or an empty structure
exists (`if not atomic_data: continue`) — store the positions interpreted
per the qualifier. -/
def apStep (data : List PyStr) (n : Nat) (cur : PyStr) (s : St) : Except Err St := do
  let coord_flag := pyStripWs ((pySplitOn (("(").toList) cur).getLastD [])
  let pos2 ← apLoop data n s.posData.length 0 s.posData
  match s.atomic with
  | none => .ok { s with posData := pos2 }
  | some a =>
    if a.symbols.isEmpty then .ok { s with posData := pos2 }
    else do
      let a2 ← applyCoords a coord_flag s.alat pos2
      .ok { s with posData := pos2, atomic := some a2 }

/-- Total-energy handler (source lines 140–141): second-to-last token,
converted from Rydberg; last occurrence wins. -/
def energyStep (cur : PyStr) (s : St) : Except Err St := do
  let t ← getIntE (pySplitWs cur) (-2)
  let v ← floatE t
  .ok { s with energy := some (v * Rydberg) }

/-- The raw exchange-correlation descriptor: substring after the last `'='`,
stripped (source line 146). -/
def xcStrOf (cur : PyStr) : PyStr :=
  pyStripWs ((pySplitOn (("=").toList) cur).getLastD [])

/-- The descriptor cut at `find('(')` (source line 147).  When no `'('` is
present, `find` returns `-1` and the slice drops the final character. -/
def xcSliceOf (cur : PyStr) : PyStr :=
  pySliceTo (xcStrOf cur) (pyFind ((("(")).toList) (xcStrOf cur))

/-- Descriptor tokenization (source lines 147–150): whitespace split; a
single token is re-split on `'+'`; fewer than four tokens are re-joined
into one composite key; each token is lower-cased and stripped of quote and
dash characters. -/
def xcPartsOf (cur : PyStr) : List PyStr :=
  let p0 := pySplitWs (xcSliceOf cur)
  let p1 := if p0.length == 1 then pySplitOn (("+").toList) (p0.headD []) else p0
  let p2 := if p1.length < 4 then [List.intercalate (("+").toList) p1] else p1
  p2.map (fun x => pyStrip ['-', '\x27', '\x22'] (pyLower x))

/-- Exchange-correlation handler (source lines 143–165): skipped once `H`
is truthy; a single normalized token is looked up as a dict key (the raw
token is stored on a miss); multiple tokens are re-joined and searched in
the setup lists (the joined string is stored when nothing matches). -/
def xcStep (cur : PyStr) (s : St) : Except Err St :=
  if truthy s.H then .ok s
  else
    let parts := xcPartsOf cur
    if parts.length == 1 then
      let k := parts.headD []
      match (xc_internal_map.find? (fun p => p.1 == k)).map (fun p => p.2) with
      | some e => .ok { s with H := some e.name, H_types := s.H_types ++ e.type }
      | none => .ok { s with H := some k }
    else
      let joined := List.intercalate (("+").toList) parts
      match (xc_internal_map.map (fun p => p.2)).find? (fun e => e.setup.contains joined) with
      | some e => .ok { s with H := some e.name, H_types := s.H_types ++ e.type }
      | none => .ok { s with H := some joined }

/-- Take at most two leading digits (a `strptime` two-digit numeric field). -/
def grabNum2 (s : PyStr) : Option (Nat × PyStr) :=
  let ds := (s.takeWhile Char.isDigit).take 2
  if ds.isEmpty then none else some (digitsToNat ds, s.drop ds.length)

/-- Require the next character. -/
def expectChar (c : Char) (s : PyStr) : Option PyStr :=
  match s with
  | x :: t => if x == c then some t else none
  | [] => none

/-- `time.strptime(d, fmt)` for the formats the timing handler builds
(`"%S.%fs"`, optionally prefixed by `"%Mm"` and `"%Hh"`, source lines
169–174), followed by the `timedelta(...).total_seconds()/3600` conversion
of line 176 — the `%f` fraction is discarded exactly as in the source,
which only reads `tm_hour`/`tm_min`/`tm_sec`.  Returns total hours; `none`
models `ValueError`.  The final `"%2.2f" % ...` string formatting is not
re-modelled: the record keeps the exact rational the string displays. -/
def strpDuration (s0 : PyStr) (useH useM : Bool) : Option ℚ := do
  let hs ← if useH then do
      let p ← grabNum2 s0
      if p.1 ≤ 23 then do
        let r ← expectChar 'h' p.2
        pure (p.1, r)
      else none
    else pure (0, s0)
  let ms ← if useM then do
      let p ← grabNum2 hs.2
      if p.1 ≤ 59 then do
        let r ← expectChar 'm' p.2
        pure (p.1, r)
      else none
    else pure (0, hs.2)
  let sec ← grabNum2 ms.2
  if sec.1 ≤ 61 then do
    let s1 ← expectChar '.' sec.2
    let frac := s1.takeWhile Char.isDigit
    if frac.isEmpty || frac.length > 6 then none
    else do
      let s2 ← expectChar 's' (s1.drop frac.length)
      if s2.isEmpty then
        some (((hs.1 * 3600 + ms.1 * 60 + sec.1 : Nat) : ℚ) / 3600)
      else none
  else none

/-- The timing-banner pipeline (source lines 168–176): substring after the
last `"CPU"`, delete `"time"` and commas, cut just past the first `'s'`,
strip and delete spaces, then `strptime` with a format chosen by the
presence of `'m'`/`'h'`. -/
def durationOf (cur : PyStr) : Option ℚ :=
  let d0 := (pySplitOn (("CPU").toList) cur).getLastD []
  let d1 := pyReplace (("time").toList) [] d0
  let d2 := pyReplace ((",").toList) [] d1
  let d3 := pyReplace ((" ").toList) []
    (pyStripWs (pySliceTo d2 (pyFind (("s").toList) d2 + 1)))
  strpDuration d3 (pyContains [('h' : Char)] d3) (pyContains [('m' : Char)] d3)

/-- Wall-clock banner handler (source lines 167–177): only lines carrying a
WALL marker are parsed; on success the duration is stored and the finished
flag set to 1. -/
def timingStep (cur : PyStr) (s : St) : Except Err St :=
  if pyContains (("WALL").toList) cur || pyContains (("wall").toList) cur then
    match durationOf cur with
    | none => .error Err.valueError
    | some q => .ok { s with duration := some q, finished := 1 }
  else .ok s

/-- One iteration of the main `for n in range(len(self.data))` dispatch
(source lines 76–177): the `elif` chain over the current line.  Handlers
look ahead into `data` but — since rebinding `n` inside a Python
`for`-range loop does not affect the iterator — never advance the main
index. -/
def step (data : List PyStr) (n : Nat) (s : St) : Except Err St :=
  let cur := data.getD n []
  if pyContains (("This run was terminated on").toList) cur then
    .ok { s with finished := 1 }
  else if pyContains (("     Program PWSCF").toList) cur
      && pyContains ((" starts ").toList) cur then
    .ok { s with prog := some (progOf cur) }
  else if (("     celldm").toList).isPrefixOf cur then celldmStep cur s
  else if (("     crystal axes:").toList).isPrefixOf cur then axesStep data n s
  else if (("     site n.").toList).isPrefixOf cur then siteStep data n s
  else if pyContains (("CELL_PARAMETERS").toList) cur then cpStep data n cur s
  else if pyContains (("ATOMIC_POSITIONS").toList) cur then apStep data n cur s
  else if (("!    total energy").toList).isPrefixOf cur then energyStep cur s
  else if pyContains (("     Exchange-correlation").toList) cur then xcStep cur s
  else if pyContains (("PWSCF        :").toList) cur then timingStep cur s
  else .ok s

/-- The main scan with explicit recursion fuel; the fuel is the number of
remaining line indices, so it is passed as `data.length - n` and runs out
exactly at the end of the file. -/
def scanFuel (data : List PyStr) : Nat → Nat → St → Except Err St
  | 0, _, s => .ok s
  | fuel + 1, n, s =>
    if n < data.length then
      match step data n s with
      | .error e => .error e
      | .ok s2 => scanFuel data fuel (n + 1) s2
    else .ok s

/-- The main scan from line index `n`: every index up to the end of the
file is dispatched exactly once, in order. -/
def scanFrom (data : List PyStr) (n : Nat) (s : St) : Except Err St :=
  scanFuel data (data.length - n) n s

/-- The scan of the first `k` line indices only (used to observe the state
before and after one particular line). -/
def scanUpTo (data : List PyStr) : Nat → St → Except Err St
  | 0, s => .ok s
  | k + 1, s => do
    let s2 ← scanUpTo data k s
    step data k s2

/-- Python `posixpath.dirname`. -/
def pyDirname (p : PyStr) : PyStr :=
  let head := pySliceTo p (pyRFindChar '/' p + 1)
  if !head.isEmpty && !(head.all (fun c => c == '/')) then
    (head.reverse.dropWhile (fun c => c == '/')).reverse
  else head

/-- Python `posixpath.join` for two components. -/
def pyJoin (a b : PyStr) : PyStr :=
  match b with
  | '/' :: _ => b
  | _ =>
    match a.getLast? with
    | none => b
    | some c => if c == '/' then a ++ b else a ++ ('/' :: b)

/-- The sibling-file candidate the parser checks at end of scan (source
lines 22 and 181–182): `filename.replace('.' + filename.split('.')[-1],
'') + '.in'`, joined — although it usually already carries the directory —
onto `os.path.dirname(filename)` again. -/
def codeCandidate (filename : PyStr) : PyStr :=
  let ext := (pySplitOn ((".").toList) filename).getLastD []
  pyJoin (pyDirname filename)
    (pyReplace ('.' :: ext) [] filename ++ ((".in").toList))

/-- The whole extractor `QuantumESPRESSO.__init__` (source lines 19–182):
scan every line, then attach the structure when one was built and is
non-empty, and append the sibling input file when the filesystem oracle
`fs` (modelling `os.path.exists`) reports it present.  `related_files`
always starts with the log's own path (source line 23). -/
def parse (fs : PyStr → Bool) (filename : PyStr) (data : List PyStr) :
    Except Err ParsedRecord := do
  let s ← scanFrom data 0 {}
  let structures :=
    match s.atomic with
    | some a => if a.symbols.isEmpty then [] else [a]
    | none => []
  let cand := codeCandidate filename
  let related := [filename] ++ (if fs cand then [cand] else [])
  .ok { finished := s.finished, prog := s.prog, energy := s.energy,
        H := s.H, H_types := s.H_types, duration := s.duration,
        structures := structures, related_files := related }

/-- The format detector `QuantumESPRESSO.fingerprints` (source lines
184–187). -/
def fingerprints (t : PyStr) : Bool :=
  if (pyContains (("pwscf").toList) t || pyContains (("PWSCF").toList) t)
      && pyContains (("     Current dimensions of program ").toList) t then
    true
  else false

deriving instance DecidableEq for Except

/-- Modelled from the claim's words (C5): the originating-program token
matched case-insensitively. -/
def caseInsensitiveContains (sub t : PyStr) : Bool :=
  pyContains (pyLower sub) (pyLower t)

/-- Modelled from the claim's words (C8): the path obtained by replacing
only the log file's final extension with `.in`, keeping the same directory
and base name. -/
def specSiblingCandidate (f : PyStr) : PyStr :=
  pySliceTo f (pyRFindChar '.' f) ++ ((".in").toList)

/-- Modelled from the claim's words (C7): strip only trailing digits, cut
at the underscore separator, then the same length-recovery heuristic. -/
def claimSymbolNorm (tok : PyStr) : PyStr :=
  let digits := ("0123456789").toList
  let s1 := (tok.reverse.dropWhile (fun c => digits.contains c)).reverse
  let s2 := s1.takeWhile (fun c => c != '_')
  if !(chemical_symbols.contains s2) && s2.length > 1 then s2.dropLast else s2

/-- The amended normalization for C7: strip digits from both ends, keep the
prefix before the first underscore, then the same recovery heuristic as the
source. -/
def amendedSymbolNorm (tok : PyStr) : PyStr :=
  let digits := ("0123456789").toList
  let s1 := tok.dropWhile (fun c => digits.contains c)
  let s2 := (s1.reverse.dropWhile (fun c => digits.contains c)).reverse
  let s3 := s2.takeWhile (fun c => c != '_')
  if !(chemical_symbols.contains s3) && s3.length > 1 then s3.dropLast else s3

/-- Fuel-explicit core of `rowsRead` (fuel is `data.length - m`). -/
def rowsReadFuel (data : List PyStr) : Nat → Nat → Nat
  | 0, _ => 0
  | fuel + 1, m =>
    if h : m < data.length then
      if (pySplitWs (data.get ⟨m, h⟩)).isEmpty then 1
      else 1 + rowsReadFuel data fuel (m + 1)
    else 0

/-- Modelled from the spec (C3): lookahead lines the atomic-site handler
consumes from index `m` on — its rows up to and including the terminating
empty line (or to the end of file). -/
def rowsRead (data : List PyStr) (m : Nat) : Nat :=
  rowsReadFuel data (data.length - m) m

/-- Modelled from the spec (C3): lookahead lines consumed by a
CELL_PARAMETERS block — up to three rows, stopping at an empty line. -/
def cpRowsSpec (data : List PyStr) (n : Nat) : Nat :=
  if (pySplitWs (data.getD (n + 1) [])).isEmpty then 1
  else if (pySplitWs (data.getD (n + 2) [])).isEmpty then 2
  else 3

/-- Modelled from the spec (C3/§9): the number of lookahead lines each
handler reports as consumed, so that the main index can skip them. -/
def specConsumed (data : List PyStr) (n : Nat) (s : St) : Nat :=
  let cur := data.getD n []
  if pyContains (("This run was terminated on").toList) cur then 0
  else if pyContains (("     Program PWSCF").toList) cur
      && pyContains ((" starts ").toList) cur then 0
  else if (("     celldm").toList).isPrefixOf cur then 0
  else if (("     crystal axes:").toList).isPrefixOf cur then 3
  else if (("     site n.").toList).isPrefixOf cur then
    if s.posData.length ≠ 0 then 0 else rowsRead data (n + 1)
  else if pyContains (("CELL_PARAMETERS").toList) cur then cpRowsSpec data n
  else if pyContains (("ATOMIC_POSITIONS").toList) cur then s.posData.length
  else 0

/-- Fuel-explicit core of `specScanFrom`; the fuel (initially the file
length) bounds the number of dispatched lines, which only shrinks when
handlers additionally skip their consumed lookahead. -/
def specScanFuel (data : List PyStr) : Nat → Nat → St → Except Err St
  | 0, _, s => .ok s
  | fuel + 1, n, s =>
    if n < data.length then
      match step data n s with
      | .error e => .error e
      | .ok s2 => specScanFuel data fuel (n + 1 + specConsumed data n s) s2
    else .ok s

/-- Modelled from the spec (C3/§2/§9): the scan in which handler-consumed
lookahead lines advance the main index and are never re-dispatched. -/
def specScanFrom (data : List PyStr) (n : Nat) (s : St) : Except Err St :=
  specScanFuel data (data.length - n) n s

/-- Modelled from the spec (C3): `parse` with the index-advancing scan of
`specScanFrom` in place of the source's re-dispatching scan. -/
def specParse (fs : PyStr → Bool) (filename : PyStr) (data : List PyStr) :
    Except Err ParsedRecord := do
  let s ← specScanFrom data 0 {}
  let structures :=
    match s.atomic with
    | some a => if a.symbols.isEmpty then [] else [a]
    | none => []
  let cand := codeCandidate filename
  let related := [filename] ++ (if fs cand then [cand] else [])
  .ok { finished := s.finished, prog := s.prog, energy := s.energy,
        H := s.H, H_types := s.H_types, duration := s.duration,
        structures := structures, related_files := related }

/-- A filesystem oracle on which no sibling file exists. -/
def fsNone : PyStr → Bool := fun _ => false

/-- A neutral log file name used by the concrete runs. -/
def fname0 : PyStr := ("a.out").toList

/-- A log consisting only of a termination banner line. -/
def termOnlyLog : List PyStr :=
  [("   This run was terminated on:  18:12:33  27Nov2013            ").toList]

/-- A log consisting only of a wall-clock timing banner line. -/
def wallOnlyLog : List PyStr :=
  [("     PWSCF        :     0.52s CPU         0.57s WALL").toList]

/-- A well-formed log: scale factor, crystal axes, a one-atom site table,
then a CELL_PARAMETERS block whose header is followed by one row and an
empty line (fewer than 3 well-formed rows). -/
def c1Log : List PyStr :=
  [ ("     celldm(1)=   1.0  celldm(2)=   0.000000").toList,
    ("     crystal axes: (cart. coord. in units of alat)").toList,
    ("               a(1) = (   1.0   0.0   0.0  )").toList,
    ("               a(2) = (   0.0   1.0   0.0  )").toList,
    ("               a(3) = (   0.0   0.0   1.0  )").toList,
    ("     site n.     atom                  positions (alat units)").toList,
    ("         1           Fe  tau(   1) = (   0.0   0.0   0.0  )").toList,
    ("").toList,
    ("CELL_PARAMETERS (alat)").toList,
    ("   2.0   0.0   0.0").toList,
    ("").toList ]

/-- A log whose single site-table row is also a valid termination-banner
match: the row is consumed by the site lookahead AND re-dispatched by the
main loop. -/
def c3Log : List PyStr :=
  [ ("     celldm(1)=   1.0").toList,
    ("     crystal axes:").toList,
    ("               a(1) = (   1.0   0.0   0.0  )").toList,
    ("               a(2) = (   0.0   1.0   0.0  )").toList,
    ("               a(3) = (   0.0   0.0   1.0  )").toList,
    ("     site n.     atom").toList,
    (" 1 Fe This run was terminated on ( 0.0 0.0 0.0 )").toList,
    ("").toList ]

/-- A log with an empty first atomic-site table followed by a second,
non-empty one. -/
def c6Log : List PyStr :=
  [ ("     celldm(1)=   1.0").toList,
    ("     crystal axes:").toList,
    ("               a(1) = (   1.0   0.0   0.0  )").toList,
    ("               a(2) = (   0.0   1.0   0.0  )").toList,
    ("               a(3) = (   0.0   0.0   1.0  )").toList,
    ("     site n.     atom").toList,
    ("").toList,
    ("     site n.     atom").toList,
    ("         1           Fe  tau(   1) = (   0.0   0.0   0.0  )").toList,
    ("").toList ]

/-- A log whose single site-table row carries the atom label `1Fe`
(leading digit). -/
def c7Log : List PyStr :=
  [ ("     celldm(1)=   1.0").toList,
    ("     crystal axes:").toList,
    ("               a(1) = (   1.0   0.0   0.0  )").toList,
    ("               a(2) = (   0.0   1.0   0.0  )").toList,
    ("               a(3) = (   0.0   0.0   1.0  )").toList,
    ("     site n.     atom").toList,
    ("         1           1Fe  tau(   1) = (   0.0   0.0   0.0  )").toList,
    ("").toList ]

/-- A log whose single site-table row carries the atom label `Fe1`
(the claim's own example). -/
def fe1Log : List PyStr :=
  [ ("     celldm(1)=   1.0").toList,
    ("     crystal axes:").toList,
    ("               a(1) = (   1.0   0.0   0.0  )").toList,
    ("               a(2) = (   0.0   1.0   0.0  )").toList,
    ("               a(3) = (   0.0   0.0   1.0  )").toList,
    ("     site n.     atom").toList,
    ("         1           Fe1  tau(   1) = (   0.0   0.0   0.0  )").toList,
    ("").toList ]

/-- An exchange-correlation line whose raw descriptor is exactly the
`pbe` entry's first composite-setup string, with no parenthesis. -/
def xcBareLog : List PyStr :=
  [("     Exchange-correlation      = sla+pw+pbx+pbc").toList]

/-- An exchange-correlation line whose raw descriptor is `PBE` with no
parenthesized setup. -/
def pbeLine : PyStr := ("     Exchange-correlation      = PBE").toList

/-- The one-line log around `pbeLine`. -/
def pbeLog : List PyStr := [pbeLine]

/-- An exchange-correlation log line built from a composite-setup string
followed by a parenthesized remainder. -/
def xcParenLog (st : PyStr) : List PyStr :=
  [("     Exchange-correlation      = ").toList ++ st ++ (" ( 1 4 3 4 0 0)").toList]

/-- A log whose only line triggers the `celldm` handler but carries no
second token: `float(cur_line.split()[1])` raises IndexError. -/
def c9CrashLog : List PyStr := [("     celldm(1)=").toList]

/-- A log with a single line matching no dispatch rule. -/
def blankishLog : List PyStr := [("hello world").toList]

/-- The record produced by parsing `blankishLog` (and any other log whose
lines match no rule) under `fsNone`/`fname0`. -/
def recBlank : ParsedRecord :=
  { finished := -1, prog := none, energy := none, H := none, H_types := [],
    duration := none, structures := [], related_files := [fname0] }

/-- A filename whose final dot-separated component also occurs earlier in
the name (`a.b.a.b`). -/
def f8c : PyStr := ("a.b.a.b").toList

/-- A filesystem oracle on which exactly the claim's predicted sibling
path of `f8c` exists. -/
def fs8c : PyStr → Bool := fun p => p == ("a.b.a.in").toList

/-- A relative filename with a directory component. -/
def f8w : PyStr := ("d/x.out").toList

/-- A filesystem oracle on which exactly the doubled-directory candidate
for `f8w` exists. -/
def fs8w : PyStr → Bool := fun p => p == ("d/d/x.in").toList

/-- A mixed-case sample containing the section-header marker. -/
def c5Sample : PyStr := ("Pwscf     Current dimensions of program ").toList

/-- A three-line input whose CELL_PARAMETERS header is followed by one row
and an empty line. -/
def cpDemoLog : List PyStr :=
  [ ("CELL_PARAMETERS (bohr)").toList,
    ("   5.0   0.0   0.0").toList,
    ("").toList ]

/-- A concrete mid-scan state with an identity cell buffer and a one-atom
structure. -/
def stDemo : St :=
  { cellData := [[1, 0, 0], [0, 1, 0], [0, 0, 1]], cellIsArray := true,
    posData := [[0, 0, 0]], posFinal := true,
    symbolData := [("Fe").toList],
    atomic := some ⟨[("Fe").toList], [[0, 0, 0]], [[1, 0, 0], [0, 1, 0], [0, 0, 1]]⟩ }

set_option maxRecDepth 1000000

/-! ### Generic lemmas about the embedding's primitives -/

theorem bind_ok_iff {α β} {e : Except Err α} {f : α → Except Err β} {b : β} :
    (e >>= f) = .ok b ↔ ∃ a, e = .ok a ∧ f a = .ok b := by
  cases e <;> simp [Bind.bind, Except.bind]

theorem bind_ne_error {α β} {e : Except Err α} {f : α → Except Err β} {err : Err}
    (h1 : e ≠ .error err) (h2 : ∀ a, f a ≠ .error err) : (e >>= f) ≠ .error err := by
  cases e with
  | error e0 =>
    intro hc
    exact h1 (by simpa [Bind.bind, Except.bind] using hc)
  | ok a =>
    simpa [Bind.bind, Except.bind] using h2 a

theorem isPrefixOf_iff_ex {sub : PyStr} :
    ∀ {s : PyStr}, sub.isPrefixOf s = true ↔ ∃ q, s = sub ++ q := by
  induction sub with
  | nil => intro s; simp [List.isPrefixOf]
  | cons a as ih =>
    intro s
    cases s with
    | nil => simp [List.isPrefixOf]
    | cons b bs =>
      simp only [List.isPrefixOf, Bool.and_eq_true, beq_iff_eq, ih, List.cons_append,
        List.cons.injEq]
      constructor
      · rintro ⟨h1, q, h2⟩; exact ⟨q, h1.symm, h2⟩
      · rintro ⟨q, h1, h2⟩; exact ⟨h1.symm, q, h2⟩

theorem pyContains_iff (sub : PyStr) :
    ∀ s, pyContains sub s = true ↔ ∃ p q, s = p ++ sub ++ q := by
  intro s
  induction s with
  | nil =>
    simp only [pyContains, List.isEmpty_iff]
    constructor
    · intro h; exact ⟨[], [], by simp [h]⟩
    · rintro ⟨p, q, hpq⟩
      have := hpq.symm
      simp only [List.append_eq_nil] at this
      exact this.1.2
  | cons c t ih =>
    simp only [pyContains, Bool.or_eq_true, isPrefixOf_iff_ex, ih]
    constructor
    · rintro (⟨q, hq⟩ | ⟨p, q, hpq⟩)
      · exact ⟨[], q, by simp [hq]⟩
      · exact ⟨c :: p, q, by simp [hpq]⟩
    · rintro ⟨p, q, hpq⟩
      cases p with
      | nil => exact Or.inl ⟨q, by simpa using hpq⟩
      | cons x xs =>
        simp only [List.cons_append, List.cons.injEq] at hpq
        exact Or.inr ⟨xs, q, hpq.2⟩

theorem nil_isPrefixOf_eq (t : PyStr) : List.isPrefixOf ([] : PyStr) t = true := by
  cases t <;> rfl

theorem splitOnAux_single_head (c : Char) :
    ∀ fuel s acc, s.length ≤ fuel →
      ∃ rest, splitOnAux c [] fuel s acc
        = (acc.reverse ++ s.takeWhile (fun x => x != c)) :: rest := by
  intro fuel
  induction fuel with
  | zero =>
    intro s acc hs
    have hnil : s = [] := by
      cases s with
      | nil => rfl
      | cons a t => simp at hs
    subst hnil
    exact ⟨[], by simp [splitOnAux]⟩
  | succ fuel ih =>
    intro s acc hs
    cases s with
    | nil => exact ⟨[], by simp [splitOnAux]⟩
    | cons x t =>
      by_cases hx : x == c
      · refine ⟨splitOnAux c [] fuel (t.drop 0) [], ?_⟩
        simp [splitOnAux, hx, nil_isPrefixOf_eq, List.takeWhile, bne]
      · have hx' : (x == c) = false := by simpa using hx
        obtain ⟨rest, hrec⟩ := ih t (x :: acc) (by simpa using Nat.le_of_succ_le_succ hs)
        refine ⟨rest, ?_⟩
        simp only [splitOnAux, hx', nil_isPrefixOf_eq, Bool.false_and, if_false,
          Bool.false_eq_true, hrec, List.reverse_cons, List.takeWhile, bne]
        simp [hx']

theorem pySplitOn_single_head (c : Char) (s : PyStr) :
    (pySplitOn [c] s).headD [] = s.takeWhile (fun x => x != c) := by
  obtain ⟨rest, h⟩ := splitOnAux_single_head c s.length s [] (le_refl _)
  simp [pySplitOn, h]

theorem pySliceTo_neg_one (s : PyStr) : pySliceTo s (-1) = s.dropLast := by
  have h0 : pyNormIdx s.length 0 = 0 := by simp [pyNormIdx]
  have h1 : pyNormIdx s.length (-1) = s.length - 1 := by
    simp only [pyNormIdx, if_pos (by norm_num : (-1 : Int) < 0)]
    omega
  simp [pySliceTo, pySlice, h0, h1, List.dropLast_eq_take]

/-! ### C10 -/

/-- C10: for every exchange-correlation line whose portion after the last
`'='` contains no `'('`, `find` returns `-1` and the slice
`xc_str[:xc_str.find("(")]` drops the final character of the descriptor
before tokenization; in particular the raw descriptor `PBE` is processed
as `PB` and stored lower-cased as `pb`. -/
theorem C10_theorem :
    (∀ cur, pyFind (("(").toList) (xcStrOf cur) = -1 →
      xcSliceOf cur = (xcStrOf cur).dropLast)
    ∧ (parse fsNone fname0 pbeLog).map (fun r => r.H)
        = .ok (some (("pb").toList)) := by
  constructor
  · intro cur h
    rw [xcSliceOf, h, pySliceTo_neg_one]
  · decide

/-- C10 witness: the general truncation fact instantiated at the concrete
`Exchange-correlation = PBE` line. -/
theorem C10_witness :
    pyFind (("(").toList) (xcStrOf pbeLine) = -1
    ∧ xcSliceOf pbeLine = (xcStrOf pbeLine).dropLast :=
  ⟨by decide, C10_theorem.1 pbeLine (by decide)⟩

/-! ### C5 -/

/-- C5 counterexample: the sample `"Pwscf     Current dimensions of
program "` contains the program token case-insensitively and contains the
exact section-header marker, yet the detector returns `false` — the code
only accepts the two exact spellings `pwscf`/`PWSCF`. -/
theorem C5_counterexample :
    caseInsensitiveContains (("pwscf").toList) c5Sample = true
    ∧ pyContains (("     Current dimensions of program ").toList) c5Sample = true
    ∧ fingerprints c5Sample = false :=
  ⟨by decide, by decide, by decide⟩

/-- C5 (amended): the detector is a total Boolean function returning true
iff the sample contains the exact substring `pwscf` or the exact substring
`PWSCF` (not arbitrary mixed case), and contains the exact section-header
marker substring. -/
theorem C5_theorem : ∀ t, fingerprints t = true ↔
    ((∃ p q, t = p ++ ("pwscf").toList ++ q) ∨ (∃ p q, t = p ++ ("PWSCF").toList ++ q))
    ∧ (∃ p q, t = p ++ ("     Current dimensions of program ").toList ++ q) := by
  intro t
  rw [show fingerprints t
      = ((pyContains (("pwscf").toList) t || pyContains (("PWSCF").toList) t)
          && pyContains (("     Current dimensions of program ").toList) t) from by
    unfold fingerprints
    split <;> simp_all]
  simp only [Bool.and_eq_true, Bool.or_eq_true, pyContains_iff]

/-! ### C7 -/

/-- C7 counterexample: the label `1Fe` is stored as symbol `Fe` (Python's
`strip` removes digits from both ends), while the claim's trailing-only
rule would produce `1F`. -/
theorem C7_counterexample :
    (parse fsNone fname0 c7Log).map (fun r => r.structures.map (fun a => a.symbols))
      = .ok [[("Fe").toList]]
    ∧ claimSymbolNorm (("1Fe").toList) = ("1F").toList
    ∧ (("Fe").toList : PyStr) ≠ ("1F").toList :=
  ⟨by decide, by decide, by decide⟩

/-- C7 (amended): the stored symbol is obtained by stripping digits from
BOTH ends of the raw label, keeping the prefix before the first
underscore, and dropping the last character when the result is still not a
recognized element symbol and is longer than one character; in particular
the label `Fe1` yields symbol `Fe`. -/
theorem C7_theorem :
    (∀ tok, symbolOf tok = amendedSymbolNorm tok)
    ∧ (parse fsNone fname0 fe1Log).map (fun r => r.structures.map (fun a => a.symbols))
      = .ok [[("Fe").toList]] := by
  constructor
  · intro tok
    unfold symbolOf amendedSymbolNorm pyStrip
    dsimp only
    rw [show (("_").toList : PyStr) = ['_'] from by decide, pySplitOn_single_head]
  · decide

/-! ### C1 -/

/-- C1 counterexample: in `c1Log` the CELL_PARAMETERS header at index 8 is
followed by one row and an empty line; processing that single line changes
the running cell matrix entry (0,0) from 1 to 2 — the buffer is partially
overwritten, contradicting the claim that it is unchanged entry for
entry. -/
theorem C1_counterexample :
    (scanUpTo c1Log 8 {}).map (fun s => s.cellData)
      = .ok [[1, 0, 0], [0, 1, 0], [0, 0, 1]]
    ∧ (scanUpTo c1Log 9 {}).map (fun s => s.cellData)
      = .ok [[2, 0, 0], [0, 1, 0], [0, 0, 1]]
    ∧ ([[1, 0, 0], [0, 1, 0], [0, 0, 1]] : List (List ℚ))
      ≠ [[2, 0, 0], [0, 1, 0], [0, 0, 1]] :=
  ⟨by decide, by decide, by decide⟩

/-- C1 (amended): when the CELL_PARAMETERS row loop stops early at an
empty line (the `for`/`else` flag is false), the handler returns without
touching the structure — `set_cell` is never applied, so the structure's
cell (and atoms) are exactly as before — but the running cell buffer keeps
the partially overwritten rows the loop already wrote. -/
theorem C1_theorem : ∀ (data : List PyStr) (n : Nat) (cur : PyStr) (s : St)
    (c2 : List (List ℚ)),
    cpLoop data n 3 0 s.cellData = .ok (c2, false) →
    cpStep data n cur s = .ok { s with cellData := c2 } := by
  intro data n cur s c2 h
  unfold cpStep
  rw [h]
  simp [Bind.bind, Except.bind]

/-- C1 witness: the short-block theorem at a concrete three-line input and
a concrete mid-scan state. -/
theorem C1_witness :
    cpLoop cpDemoLog 0 3 0 stDemo.cellData
      = .ok ([[5, 0, 0], [0, 1, 0], [0, 0, 1]], false)
    ∧ cpStep cpDemoLog 0 (cpDemoLog.getD 0 []) stDemo
      = .ok { stDemo with cellData := [[5, 0, 0], [0, 1, 0], [0, 0, 1]] } :=
  ⟨by decide, C1_theorem cpDemoLog 0 (cpDemoLog.getD 0 []) stDemo _ (by decide)⟩

/-! ### C4 -/

/-- C4 counterexample: the table entry whose setup list contains
`sla+pw+pbx+pbc` is named `PBE`, but parsing a log whose raw descriptor is
exactly that setup string stores `sla+pw+pbx+pb` with no category tags —
the `find('(') = -1` slice drops the final character, so the setup lookup
misses. -/
theorem C4_counterexample :
    ((xc_internal_map.map (fun p => p.2)).find?
        (fun e => e.setup.contains (("sla+pw+pbx+pbc").toList))).map (fun e => e.name)
      = some (("PBE").toList)
    ∧ (parse fsNone fname0 xcBareLog).map (fun r => (r.H, r.H_types))
      = .ok (some (("sla+pw+pbx+pb").toList), [])
    ∧ (some (("sla+pw+pbx+pb").toList) : Option PyStr) ≠ some (("PBE").toList) :=
  ⟨by decide, by decide, by decide⟩

/-- C4 (amended): for every table entry and every all-lowercase
composite-setup string of that entry, parsing a log whose
exchange-correlation descriptor is that setup string *followed by a
parenthesized remainder* yields exactly that entry's canonical name and
category tags.  (A bare setup string with no parenthesis loses its final
character — see the counterexample — and the one setup string containing
an upper-case letter, `sla+pw+cx13+vdW1`, can never match its own entry
because tokens are lower-cased.) -/
theorem C4_theorem : ∀ e ∈ xc_internal_map.map (fun p => p.2), ∀ st ∈ e.setup,
    pyLower st = st →
    (parse fsNone fname0 (xcParenLog st)).map (fun r => (r.H, r.H_types))
      = .ok (some e.name, e.type) := by decide

/-- C4 witness: the amended theorem at the `pbe` entry and its setup
string `sla+pw+pbx+pbc`. -/
theorem C4_witness :
    (parse fsNone fname0 (xcParenLog (("sla+pw+pbx+pbc").toList))).map
        (fun r => (r.H, r.H_types))
      = .ok (some ((xcE "PBE" ["GGA"] ["sla+pw+pbx+pbc", "sla+pw+pbe+pbe"]).name),
             (xcE "PBE" ["GGA"] ["sla+pw+pbx+pbc", "sla+pw+pbe+pbe"]).type) :=
  C4_theorem (xcE "PBE" ["GGA"] ["sla+pw+pbx+pbc", "sla+pw+pbe+pbe"]) (by decide)
    (("sla+pw+pbx+pbc").toList) (by decide) (by decide)

/-! ### C8 -/

/-- C8 counterexample: for the file name `a.b.a.b`, the claim's candidate
(replace only the final extension) is `a.b.a.in`; the oracle reports that
path present, yet the parser does not append it — the code's
`str.replace` deletes every occurrence of `.b`, so it checks `a.a.in`
instead. -/
theorem C8_counterexample :
    (parse fs8c f8c []).map (fun r => r.related_files) = .ok [f8c]
    ∧ fs8c (specSiblingCandidate f8c) = true
    ∧ specSiblingCandidate f8c ∉ [f8c] :=
  ⟨by decide, by decide, by decide⟩

/-- C8 (amended): the checked candidate deletes every occurrence of
`'.' + final-extension` from the whole name (and re-joins the result onto
the directory, doubling a relative directory component); it is appended
iff the oracle reports it present, and `related_files` always contains the
log's own path. -/
theorem C8_theorem : ∀ fs f data r, parse fs f data = .ok r →
    f ∈ r.related_files
    ∧ r.related_files
      = (if fs (codeCandidate f) then [f, codeCandidate f] else [f]) := by
  intro fs f data r h
  unfold parse at h
  rw [bind_ok_iff] at h
  obtain ⟨s, _hs, hr⟩ := h
  injection hr with hr
  subst hr
  constructor
  · simp
  · by_cases hc : fs (codeCandidate f) <;> simp [hc]

/-- C8 witness: the relative name `d/x.out` with an oracle on which the
doubled path `d/d/x.in` exists. -/
theorem C8_witness :
    f8w ∈ ({ finished := -1, prog := none, energy := none, H := none,
             H_types := [], duration := none, structures := [],
             related_files := [f8w, ("d/d/x.in").toList] } : ParsedRecord).related_files
    ∧ ({ finished := -1, prog := none, energy := none, H := none,
         H_types := [], duration := none, structures := [],
         related_files := [f8w, ("d/d/x.in").toList] } : ParsedRecord).related_files
      = (if fs8w (codeCandidate f8w) then [f8w, codeCandidate f8w] else [f8w]) :=
  C8_theorem fs8w f8w [] _ (by decide)

/-! ### Frame lemmas: which state fields each handler can touch -/

theorem celldmStep_frame {cur : PyStr} {s s' : St} (h : celldmStep cur s = .ok s') :
    s'.finished = s.finished ∧ s'.energy = s.energy ∧ s'.H = s.H ∧ s'.H_types = s.H_types
    ∧ s'.duration = s.duration ∧ s'.posData = s.posData := by
  unfold celldmStep at h
  split at h
  · injection h with h
    subst h
    exact ⟨rfl, rfl, rfl, rfl, rfl, rfl⟩
  · simp only [bind_ok_iff, Except.ok.injEq] at h
    obtain ⟨t, _, v, _, h⟩ := h
    subst h
    exact ⟨rfl, rfl, rfl, rfl, rfl, rfl⟩

theorem axesStep_frame {data : List PyStr} {n : Nat} {s s' : St}
    (h : axesStep data n s = .ok s') :
    s'.finished = s.finished ∧ s'.energy = s.energy ∧ s'.H = s.H ∧ s'.H_types = s.H_types
    ∧ s'.duration = s.duration ∧ s'.posData = s.posData := by
  unfold axesStep at h
  simp only [bind_ok_iff, Except.ok.injEq] at h
  obtain ⟨rows, _, h⟩ := h
  subst h
  exact ⟨rfl, rfl, rfl, rfl, rfl, rfl⟩

theorem siteStep_frame {data : List PyStr} {n : Nat} {s s' : St}
    (h : siteStep data n s = .ok s') :
    s'.finished = s.finished ∧ s'.energy = s.energy ∧ s'.H = s.H ∧ s'.H_types = s.H_types
    ∧ s'.duration = s.duration := by
  unfold siteStep at h
  split at h
  · injection h with h
    subst h
    exact ⟨rfl, rfl, rfl, rfl, rfl⟩
  · cases hc : s.cellIsArray with
    | true =>
      rw [hc] at h
      simp only [if_true, bind_ok_iff, Except.ok.injEq] at h
      obtain ⟨ps, _, cs, _, atoms, _, h⟩ := h
      subst h
      exact ⟨rfl, rfl, rfl, rfl, rfl⟩
    | false =>
      rw [hc] at h
      simp only [Bool.false_eq_true, if_false, bind_ok_iff] at h
      obtain ⟨ps, _, cs, hcs, _⟩ := h
      simp at hcs

theorem siteStep_skip {data : List PyStr} {n : Nat} {s : St} (hne : s.posData ≠ []) :
    siteStep data n s = .ok s := by
  unfold siteStep
  have hlen : s.posData.length ≠ 0 := by
    simpa [List.length_eq_zero] using hne
  rw [if_pos hlen]

theorem cpStep_frame {data : List PyStr} {n : Nat} {cur : PyStr} {s s' : St}
    (h : cpStep data n cur s = .ok s') :
    s'.finished = s.finished ∧ s'.energy = s.energy ∧ s'.H = s.H ∧ s'.H_types = s.H_types
    ∧ s'.duration = s.duration ∧ s'.posData = s.posData := by
  unfold cpStep at h
  rw [bind_ok_iff] at h
  obtain ⟨cb, _, h⟩ := h
  split at h
  · cases hA : s.atomic with
    | none =>
      rw [hA] at h
      simp at h
    | some a =>
      rw [hA] at h
      simp only [bind_ok_iff, Except.ok.injEq] at h
      obtain ⟨a2, _, h⟩ := h
      subst h
      exact ⟨rfl, rfl, rfl, rfl, rfl, rfl⟩
  · injection h with h
    subst h
    exact ⟨rfl, rfl, rfl, rfl, rfl, rfl⟩

theorem apLoop_length {data : List PyStr} {n : Nat} :
    ∀ j i pos pos', apLoop data n j i pos = .ok pos' → pos'.length = pos.length := by
  intro j
  induction j with
  | zero =>
    intro i pos pos' h
    unfold apLoop at h
    injection h with h
    subst h
    rfl
  | succ j ih =>
    intro i pos pos' h
    unfold apLoop at h
    split at h
    · simp only [bind_ok_iff] at h
      obtain ⟨vals, _, row, _, nr, _, h⟩ := h
      have := ih (i + 1) (pos.set i nr) pos' h
      simpa [List.length_set] using this
    · simp at h

theorem apStep_frame {data : List PyStr} {n : Nat} {cur : PyStr} {s s' : St}
    (h : apStep data n cur s = .ok s') :
    s'.finished = s.finished ∧ s'.energy = s.energy ∧ s'.H = s.H ∧ s'.H_types = s.H_types
    ∧ s'.duration = s.duration ∧ s'.posData.length = s.posData.length := by
  unfold apStep at h
  simp only [bind_ok_iff] at h
  obtain ⟨pos2, hlen, h⟩ := h
  have hl := apLoop_length _ _ _ _ hlen
  split at h
  · injection h with h
    subst h
    exact ⟨rfl, rfl, rfl, rfl, rfl, hl⟩
  · split at h
    · injection h with h
      subst h
      exact ⟨rfl, rfl, rfl, rfl, rfl, hl⟩
    · simp only [bind_ok_iff, Except.ok.injEq] at h
      obtain ⟨a2, _, h⟩ := h
      subst h
      exact ⟨rfl, rfl, rfl, rfl, rfl, hl⟩

theorem energyStep_frame {cur : PyStr} {s s' : St} (h : energyStep cur s = .ok s') :
    s'.finished = s.finished ∧ s'.H = s.H ∧ s'.H_types = s.H_types
    ∧ s'.duration = s.duration ∧ s'.posData = s.posData := by
  unfold energyStep at h
  simp only [bind_ok_iff, Except.ok.injEq] at h
  obtain ⟨t, _, v, _, h⟩ := h
  subst h
  exact ⟨rfl, rfl, rfl, rfl, rfl⟩

theorem xcStep_frame {cur : PyStr} {s s' : St} (h : xcStep cur s = .ok s') :
    s'.finished = s.finished ∧ s'.energy = s.energy
    ∧ s'.duration = s.duration ∧ s'.posData = s.posData := by
  unfold xcStep at h
  split at h
  · injection h with h
    subst h
    exact ⟨rfl, rfl, rfl, rfl⟩
  · dsimp only at h
    split at h
    · split at h
      · injection h with h
        subst h
        exact ⟨rfl, rfl, rfl, rfl⟩
      · injection h with h
        subst h
        exact ⟨rfl, rfl, rfl, rfl⟩
    · split at h
      · injection h with h
        subst h
        exact ⟨rfl, rfl, rfl, rfl⟩
      · injection h with h
        subst h
        exact ⟨rfl, rfl, rfl, rfl⟩

theorem timingStep_frame {cur : PyStr} {s s' : St} (h : timingStep cur s = .ok s') :
    (s'.finished = s.finished ∨ s'.finished = 1)
    ∧ s'.energy = s.energy ∧ s'.H = s.H ∧ s'.H_types = s.H_types
    ∧ s'.posData = s.posData := by
  unfold timingStep at h
  split at h
  · split at h
    · simp at h
    · injection h with h
      subst h
      exact ⟨Or.inr rfl, rfl, rfl, rfl, rfl⟩
  · injection h with h
    subst h
    exact ⟨Or.inl rfl, rfl, rfl, rfl, rfl⟩

/-! ### Step-level invariants -/

theorem step_finished {data : List PyStr} {n : Nat} {s s' : St}
    (h : step data n s = .ok s') : s'.finished = s.finished ∨ s'.finished = 1 := by
  unfold step at h
  dsimp only at h
  repeat' split at h
  · injection h with h; subst h; exact Or.inr rfl
  · injection h with h; subst h; exact Or.inl rfl
  · exact Or.inl (celldmStep_frame h).1
  · exact Or.inl (axesStep_frame h).1
  · exact Or.inl (siteStep_frame h).1
  · exact Or.inl (cpStep_frame h).1
  · exact Or.inl (apStep_frame h).1
  · exact Or.inl (energyStep_frame h).1
  · exact Or.inl (xcStep_frame h).1
  · exact (timingStep_frame h).1
  · injection h with h; subst h; exact Or.inl rfl

theorem step_posData_ne {data : List PyStr} {n : Nat} {s s' : St}
    (hne : s.posData ≠ []) (h : step data n s = .ok s') : s'.posData ≠ [] := by
  unfold step at h
  dsimp only at h
  repeat' split at h
  · injection h with h; subst h; exact hne
  · injection h with h; subst h; exact hne
  · rw [(celldmStep_frame h).2.2.2.2.2]; exact hne
  · rw [(axesStep_frame h).2.2.2.2.2]; exact hne
  · rw [siteStep_skip hne] at h; injection h with h; subst h; exact hne
  · rw [(cpStep_frame h).2.2.2.2.2]; exact hne
  · intro hc
    have hl := (apStep_frame h).2.2.2.2.2
    rw [hc] at hl
    exact hne (List.length_eq_zero.mp hl.symm)
  · rw [(energyStep_frame h).2.2.2.2]; exact hne
  · rw [(xcStep_frame h).2.2.2]; exact hne
  · rw [(timingStep_frame h).2.2.2.2]; exact hne
  · injection h with h; subst h; exact hne

theorem step_keeps_optional {data : List PyStr} {n : Nat} {s s' : St}
    (hE : List.isPrefixOf (("!    total energy").toList) (data.getD n []) = false)
    (hX : pyContains (("     Exchange-correlation").toList) (data.getD n []) = false)
    (hT : pyContains (("PWSCF        :").toList) (data.getD n []) = false)
    (h : step data n s = .ok s') :
    s'.energy = s.energy ∧ s'.H = s.H ∧ s'.H_types = s.H_types
    ∧ s'.duration = s.duration := by
  unfold step at h
  dsimp only at h
  repeat' split at h
  · injection h with h; subst h; exact ⟨rfl, rfl, rfl, rfl⟩
  · injection h with h; subst h; exact ⟨rfl, rfl, rfl, rfl⟩
  · exact ⟨(celldmStep_frame h).2.1, (celldmStep_frame h).2.2.1,
      (celldmStep_frame h).2.2.2.1, (celldmStep_frame h).2.2.2.2.1⟩
  · exact ⟨(axesStep_frame h).2.1, (axesStep_frame h).2.2.1,
      (axesStep_frame h).2.2.2.1, (axesStep_frame h).2.2.2.2.1⟩
  · exact ⟨(siteStep_frame h).2.1, (siteStep_frame h).2.2.1,
      (siteStep_frame h).2.2.2.1, (siteStep_frame h).2.2.2.2⟩
  · exact ⟨(cpStep_frame h).2.1, (cpStep_frame h).2.2.1,
      (cpStep_frame h).2.2.2.1, (cpStep_frame h).2.2.2.2.1⟩
  · exact ⟨(apStep_frame h).2.1, (apStep_frame h).2.2.1,
      (apStep_frame h).2.2.2.1, (apStep_frame h).2.2.2.2.1⟩
  · simp_all
  · simp_all
  · simp_all
  · injection h with h; subst h; exact ⟨rfl, rfl, rfl, rfl⟩

theorem getD_mem_of_lt {α} : ∀ (l : List α) (n : Nat) (d : α), n < l.length → l.getD n d ∈ l := by
  intro l
  induction l with
  | nil => intro n d h; simp at h
  | cons a t ih =>
    intro n d h
    cases n with
    | zero => exact List.mem_cons_self a t
    | succ m =>
      exact List.mem_cons_of_mem a (ih m d (by simpa using Nat.lt_of_succ_lt_succ h))

theorem scanFuel_finished (data : List PyStr) :
    ∀ fuel n s s', scanFuel data fuel n s = .ok s' →
      s'.finished = s.finished ∨ s'.finished = 1 := by
  intro fuel
  induction fuel with
  | zero =>
    intro n s s' h
    unfold scanFuel at h
    injection h with h
    subst h
    exact Or.inl rfl
  | succ fuel ih =>
    intro n s s' h
    unfold scanFuel at h
    split at h
    · split at h
      next e he => simp at h
      next s2 hs =>
        rcases step_finished hs with h1 | h1
        · rcases ih _ _ _ h with h2 | h2
          · exact Or.inl (h2.trans h1)
          · exact Or.inr h2
        · rcases ih _ _ _ h with h2 | h2
          · exact Or.inr (h2.trans h1)
          · exact Or.inr h2
    · injection h with h
      subst h
      exact Or.inl rfl

theorem scanFuel_posData_ne (data : List PyStr) :
    ∀ fuel n s s', s.posData ≠ [] → scanFuel data fuel n s = .ok s' →
      s'.posData ≠ [] := by
  intro fuel
  induction fuel with
  | zero =>
    intro n s s' hne h
    unfold scanFuel at h
    injection h with h
    subst h
    exact hne
  | succ fuel ih =>
    intro n s s' hne h
    unfold scanFuel at h
    split at h
    · split at h
      next e he => simp at h
      next s2 hs => exact ih _ _ _ (step_posData_ne hne hs) h
    · injection h with h
      subst h
      exact hne

theorem scanFuel_keeps_optional (data : List PyStr)
    (hall : ∀ l ∈ data, List.isPrefixOf (("!    total energy").toList) l = false
      ∧ pyContains (("     Exchange-correlation").toList) l = false
      ∧ pyContains (("PWSCF        :").toList) l = false) :
    ∀ fuel n s s', scanFuel data fuel n s = .ok s' →
      s'.energy = s.energy ∧ s'.H = s.H ∧ s'.H_types = s.H_types
      ∧ s'.duration = s.duration := by
  intro fuel
  induction fuel with
  | zero =>
    intro n s s' h
    unfold scanFuel at h
    injection h with h
    subst h
    exact ⟨rfl, rfl, rfl, rfl⟩
  | succ fuel ih =>
    intro n s s' h
    unfold scanFuel at h
    split at h
    next hn =>
      split at h
      next e he => simp at h
      next s2 hs =>
        have hmem := getD_mem_of_lt data n ([] : PyStr) hn
        obtain ⟨hE, hX, hT⟩ := hall _ hmem
        obtain ⟨e1, e2, e3, e4⟩ := step_keeps_optional hE hX hT hs
        obtain ⟨f1, f2, f3, f4⟩ := ih _ _ _ h
        exact ⟨f1.trans e1, f2.trans e2, f3.trans e3, f4.trans e4⟩
    next =>
      injection h with h
      subst h
      exact ⟨rfl, rfl, rfl, rfl⟩

/-! ### C2 -/

/-- C2 counterexample: a log containing only the termination banner ends
with `finished = 1` — the very same value the wall-clock banner writes —
so there is no distinct terminated-abnormally value. -/
theorem C2_counterexample :
    (parse fsNone fname0 termOnlyLog).map (fun r => r.finished) = .ok 1
    ∧ (parse fsNone fname0 wallOnlyLog).map (fun r => r.finished) = .ok 1 :=
  ⟨by decide, by decide⟩

/-- C2 (amended): the flag is effectively two-state.  It starts at `-1`
(not yet determined) and every successful parse ends with it equal to
`-1` or `1`; both the termination banner and the wall-clock banner write
the same value `1`, so a termination-only log is indistinguishable from a
normally finished one. -/
theorem C2_theorem :
    (∀ fs f data r, parse fs f data = .ok r → r.finished = -1 ∨ r.finished = 1)
    ∧ (parse fsNone fname0 termOnlyLog).map (fun r => r.finished) = .ok 1
    ∧ (parse fsNone fname0 wallOnlyLog).map (fun r => r.finished) = .ok 1
    ∧ (parse fsNone fname0 []).map (fun r => r.finished) = .ok (-1) := by
  refine ⟨?_, by decide, by decide, by decide⟩
  intro fs f data r h
  unfold parse at h
  rw [bind_ok_iff] at h
  obtain ⟨s, hs, hr⟩ := h
  injection hr with hr
  subst hr
  unfold scanFrom at hs
  simpa using scanFuel_finished data _ _ _ _ hs

/-- C2 witness: the two-state invariant instantiated on a concrete
successful parse. -/
theorem C2_witness : recBlank.finished = -1 ∨ recBlank.finished = 1 :=
  C2_theorem.1 fsNone fname0 blankishLog recBlank (by decide)

/-! ### C6 -/

/-- C6 counterexample: a log with an empty first site table (header
followed directly by a blank line) and a second, non-empty site table
crashes with AttributeError — the second header is *not* skipped, because
the skip condition is `len(pos_data)` and the empty first table left it
zero, and the handler then calls `append` on the numpy array. -/
theorem C6_counterexample : parse fsNone fname0 c6Log = .error Err.attrError := by
  decide

/-- C6 (amended): a subsequent site-table header is skipped — leaving the
whole state, and with it the structure's atom list, unchanged — exactly
when the accumulated atom list is non-empty; and every successful step
keeps that list non-empty.  Hence for logs whose first site table yields
at least one atom, exactly that table fixes the atom count, symbols and
ordering, and later tables are inert. -/
theorem C6_theorem :
    (∀ data n s, s.posData ≠ [] → siteStep data n s = .ok s)
    ∧ (∀ data n s s', s.posData ≠ [] → step data n s = .ok s' → s'.posData ≠ []) := by
  constructor
  · intro data n s hne
    exact siteStep_skip hne
  · intro data n s s' hne h
    exact step_posData_ne hne h

/-- C6 witness: the skip behaviour at a concrete one-atom state: the
site-table header handler returns the state unchanged. -/
theorem C6_witness :
    siteStep ([] : List PyStr) 0 stDemo = .ok stDemo ∧ stDemo.posData ≠ [] :=
  ⟨C6_theorem.1 [] 0 stDemo (by decide), by decide⟩

/-! ### The extractor never produces the detector-level failure -/

theorem getE_ne_unrec {α} (l : List α) (i : Nat) :
    getE l i ≠ .error Err.unrecognizedFormat := by
  unfold getE
  split <;> simp

theorem getIntE_ne_unrec {α} (l : List α) (i : Int) :
    getIntE l i ≠ .error Err.unrecognizedFormat := by
  unfold getIntE
  dsimp only
  repeat' split
  all_goals simp

theorem floatE_ne_unrec (t : PyStr) : floatE t ≠ .error Err.unrecognizedFormat := by
  unfold floatE
  split <;> simp

theorem pure_ne_unrec {α} (a : α) :
    (pure a : Except Err α) ≠ .error Err.unrecognizedFormat := by
  simp [pure, Except.pure]

theorem mapM_loop_ne_unrec {α β} {f : α → Except Err β}
    (hf : ∀ a, f a ≠ .error Err.unrecognizedFormat) :
    ∀ (l : List α) (acc : List β),
      List.mapM.loop f l acc ≠ .error Err.unrecognizedFormat := by
  intro l
  induction l with
  | nil => intro acc; simp [List.mapM.loop, pure, Except.pure]
  | cons a t ih =>
    intro acc
    simp only [List.mapM.loop]
    exact bind_ne_error (hf a) (fun b => ih _)

theorem mapM_floatE_ne_unrec (l : List PyStr) :
    l.mapM floatE ≠ .error Err.unrecognizedFormat := by
  unfold List.mapM
  exact mapM_loop_ne_unrec floatE_ne_unrec l []

theorem mapM_rows_ne_unrec (rows : List (List PyStr)) :
    rows.mapM (fun r => r.mapM floatE) ≠ .error Err.unrecognizedFormat := by
  unfold List.mapM
  exact mapM_loop_ne_unrec (fun r => mapM_floatE_ne_unrec r) rows []

theorem rowAssign_ne_unrec (row vals : List ℚ) :
    rowAssign row vals ≠ .error Err.unrecognizedFormat := by
  unfold rowAssign
  split
  · simp
  · split <;> simp

theorem mkAtoms_ne_unrec (syms : List PyStr) (pos cell : List (List ℚ)) :
    mkAtoms syms pos cell ≠ .error Err.unrecognizedFormat := by
  unfold mkAtoms
  split
  · simp
  · split
    · simp
    · split <;> simp

theorem set_positions_ne_unrec (a : Atoms) (p : List (List ℚ)) :
    set_positions a p ≠ .error Err.unrecognizedFormat := by
  unfold set_positions
  split <;> simp

theorem set_scaled_positions_ne_unrec (a : Atoms) (p : List (List ℚ)) :
    set_scaled_positions a p ≠ .error Err.unrecognizedFormat := by
  unfold set_scaled_positions
  split <;> simp

theorem set_cell_ne_unrec (a : Atoms) (nc : List (List ℚ)) :
    set_cell a nc ≠ .error Err.unrecognizedFormat := by
  unfold set_cell
  split
  · split <;> simp
  · simp

theorem applyCoords_ne_unrec (a : Atoms) (flag : PyStr) (alat : ℚ)
    (pos : List (List ℚ)) : applyCoords a flag alat pos ≠ .error Err.unrecognizedFormat := by
  unfold applyCoords
  split
  · exact set_positions_ne_unrec _ _
  · split
    · exact set_positions_ne_unrec _ _
    · split
      · exact set_positions_ne_unrec _ _
      · exact set_scaled_positions_ne_unrec _ _

theorem siteLoop_ne_unrec (data : List PyStr) (posFinal : Bool) :
    ∀ fuel m pos syms,
      siteLoop data posFinal fuel m pos syms ≠ .error Err.unrecognizedFormat := by
  intro fuel
  induction fuel with
  | zero => intro m pos syms; simp [siteLoop]
  | succ fuel ih =>
    intro m pos syms
    unfold siteLoop
    dsimp only
    repeat' split
    · simp
    · simp
    · apply bind_ne_error (mapM_loop_ne_unrec floatE_ne_unrec _ _)
      intro coords
      apply bind_ne_error (getE_ne_unrec _ _)
      intro t1
      exact ih _ _ _
    · simp

theorem cpLoop_ne_unrec (data : List PyStr) (n : Nat) :
    ∀ j i cell, cpLoop data n j i cell ≠ .error Err.unrecognizedFormat := by
  intro j
  induction j with
  | zero => intro i cell; simp [cpLoop]
  | succ j ih =>
    intro i cell
    unfold cpLoop
    dsimp only
    repeat' split
    · simp
    · apply bind_ne_error (mapM_loop_ne_unrec floatE_ne_unrec _ _)
      intro vals
      apply bind_ne_error (getE_ne_unrec _ _)
      intro row
      apply bind_ne_error (rowAssign_ne_unrec _ _)
      intro nr
      exact ih _ _
    · simp

theorem apLoop_ne_unrec (data : List PyStr) (n : Nat) :
    ∀ j i pos, apLoop data n j i pos ≠ .error Err.unrecognizedFormat := by
  intro j
  induction j with
  | zero => intro i pos; simp [apLoop]
  | succ j ih =>
    intro i pos
    unfold apLoop
    dsimp only
    repeat' split
    · apply bind_ne_error (mapM_loop_ne_unrec floatE_ne_unrec _ _)
      intro vals
      apply bind_ne_error (getE_ne_unrec _ _)
      intro row
      apply bind_ne_error (rowAssign_ne_unrec _ _)
      intro nr
      exact ih _ _
    · simp

theorem celldmStep_ne_unrec (cur : PyStr) (s : St) :
    celldmStep cur s ≠ .error Err.unrecognizedFormat := by
  unfold celldmStep
  split
  · simp
  · exact bind_ne_error (getE_ne_unrec _ _)
      (fun t => bind_ne_error (floatE_ne_unrec _) (fun v => by simp))

theorem axesStep_ne_unrec (data : List PyStr) (n : Nat) (s : St) :
    axesStep data n s ≠ .error Err.unrecognizedFormat := by
  unfold axesStep
  exact bind_ne_error (mapM_rows_ne_unrec _) (fun rows => by simp)

theorem siteStep_ne_unrec (data : List PyStr) (n : Nat) (s : St) :
    siteStep data n s ≠ .error Err.unrecognizedFormat := by
  unfold siteStep
  split
  · simp
  · refine bind_ne_error (siteLoop_ne_unrec _ _ _ _ _ _) (fun ps => ?_)
    dsimp only
    split
    · apply bind_ne_error (by simp)
      intro y
      apply bind_ne_error (mkAtoms_ne_unrec _ _ _)
      intro atoms
      simp
    · apply bind_ne_error (by simp)
      intro y
      apply bind_ne_error (mkAtoms_ne_unrec _ _ _)
      intro atoms
      simp

theorem cpStep_ne_unrec (data : List PyStr) (n : Nat) (cur : PyStr) (s : St) :
    cpStep data n cur s ≠ .error Err.unrecognizedFormat := by
  unfold cpStep
  refine bind_ne_error (cpLoop_ne_unrec _ _ _ _ _) (fun cb => ?_)
  split
  · cases s.atomic with
    | none => simp
    | some a =>
      exact bind_ne_error (set_cell_ne_unrec _ _) (fun a2 => by simp)
  · simp

theorem apStep_ne_unrec (data : List PyStr) (n : Nat) (cur : PyStr) (s : St) :
    apStep data n cur s ≠ .error Err.unrecognizedFormat := by
  unfold apStep
  refine bind_ne_error (apLoop_ne_unrec _ _ _ _ _) (fun pos2 => ?_)
  dsimp only
  split
  · simp
  · split
    · simp
    · apply bind_ne_error (applyCoords_ne_unrec _ _ _ _)
      intro a2
      simp

theorem energyStep_ne_unrec (cur : PyStr) (s : St) :
    energyStep cur s ≠ .error Err.unrecognizedFormat := by
  unfold energyStep
  exact bind_ne_error (getIntE_ne_unrec _ _)
    (fun t => bind_ne_error (floatE_ne_unrec _) (fun v => by simp))

theorem xcStep_ne_unrec (cur : PyStr) (s : St) :
    xcStep cur s ≠ .error Err.unrecognizedFormat := by
  unfold xcStep
  split
  · simp
  · dsimp only
    split
    · split <;> simp
    · split <;> simp

theorem timingStep_ne_unrec (cur : PyStr) (s : St) :
    timingStep cur s ≠ .error Err.unrecognizedFormat := by
  unfold timingStep
  split
  · split <;> simp
  · simp

theorem step_ne_unrec (data : List PyStr) (n : Nat) (s : St) :
    step data n s ≠ .error Err.unrecognizedFormat := by
  unfold step
  dsimp only
  repeat' split
  · simp
  · simp
  · exact celldmStep_ne_unrec _ _
  · exact axesStep_ne_unrec _ _ _
  · exact siteStep_ne_unrec _ _ _
  · exact cpStep_ne_unrec _ _ _ _
  · exact apStep_ne_unrec _ _ _ _
  · exact energyStep_ne_unrec _ _
  · exact xcStep_ne_unrec _ _
  · exact timingStep_ne_unrec _ _
  · simp

theorem scanFuel_ne_unrec (data : List PyStr) :
    ∀ fuel n s, scanFuel data fuel n s ≠ .error Err.unrecognizedFormat := by
  intro fuel
  induction fuel with
  | zero => intro n s; simp [scanFuel]
  | succ fuel ih =>
    intro n s
    unfold scanFuel
    split
    · split
      next e he =>
        intro hc
        injection hc with hc
        subst hc
        exact step_ne_unrec data n s he
      next s2 hs => exact ih _ _
    · simp

/-! ### C9 -/

/-- C9 counterexample: a log whose only line is `     celldm(1)=` contains
no energy, exchange-correlation or timing line, yet the parse raises
IndexError (`cur_line.split()[1]` on a one-token line) instead of
completing. -/
theorem C9_counterexample :
    (∀ l ∈ c9CrashLog, List.isPrefixOf (("!    total energy").toList) l = false
      ∧ pyContains (("     Exchange-correlation").toList) l = false
      ∧ pyContains (("PWSCF        :").toList) l = false)
    ∧ parse fsNone fname0 c9CrashLog = .error Err.indexError :=
  ⟨by decide, by decide⟩

/-- C9 (amended): when the energy, exchange-correlation and timing lines
are absent, any parse that completes at all (i.e. no malformed trigger
line crashes it with a Python-level error) returns a record with
final_energy, functional name and tags, and duration unset; and the
extractor never fails with `UnrecognizedFormat` — that failure belongs to
the detector alone. -/
theorem C9_theorem :
    (∀ fs f data r,
      (∀ l ∈ data, List.isPrefixOf (("!    total energy").toList) l = false
        ∧ pyContains (("     Exchange-correlation").toList) l = false
        ∧ pyContains (("PWSCF        :").toList) l = false) →
      parse fs f data = .ok r →
      r.energy = none ∧ r.H = none ∧ r.H_types = [] ∧ r.duration = none)
    ∧ (∀ fs f data, parse fs f data ≠ .error Err.unrecognizedFormat) := by
  constructor
  · intro fs f data r hall h
    unfold parse at h
    rw [bind_ok_iff] at h
    obtain ⟨s, hs, hr⟩ := h
    injection hr with hr
    subst hr
    unfold scanFrom at hs
    have hopt := scanFuel_keeps_optional data hall _ _ _ _ hs
    exact ⟨hopt.1, hopt.2.1, hopt.2.2.1, hopt.2.2.2⟩
  · intro fs f data
    unfold parse
    refine bind_ne_error ?_ (fun s => by simp)
    unfold scanFrom
    exact scanFuel_ne_unrec data _ _ _

/-- C9 witness: the field-unset guarantee on a concrete log with no
trigger lines at all. -/
theorem C9_witness :
    recBlank.energy = none ∧ recBlank.H = none ∧ recBlank.H_types = []
    ∧ recBlank.duration = none :=
  C9_theorem.1 fsNone fname0 blankishLog recBlank (by decide) (by decide)

/-! ### C3 -/

theorem scanFuel_eq_foldlM (data : List PyStr) :
    ∀ fuel n s, fuel = data.length - n → n ≤ data.length →
      scanFuel data fuel n s
        = (List.range' n fuel).foldlM (fun t k => step data k t) s := by
  intro fuel
  induction fuel with
  | zero =>
    intro n s hf hn
    simp [scanFuel, List.range', pure, Except.pure]
  | succ fuel ih =>
    intro n s hf hn
    have hlt : n < data.length := by omega
    unfold scanFuel
    rw [if_pos hlt, show List.range' n (fuel + 1) = n :: List.range' (n + 1) fuel from rfl,
      List.foldlM_cons]
    cases hstep : step data n s with
    | error e => simp [Bind.bind, Except.bind]
    | ok s2 =>
      simp only [Bind.bind, Except.bind]
      exact ih (n + 1) s2 (by omega) (by omega)

/-- C3 counterexample: in `c3Log` the single site-table row both feeds the
site lookahead *and* is re-dispatched by the main loop, where its embedded
termination-banner substring sets `finished = 1`; under the spec's model
(`specParse`), where consumed lookahead advances the main index, the same
log ends with `finished = -1`. -/
theorem C3_counterexample :
    (parse fsNone fname0 c3Log).map (fun r => r.finished) = .ok 1
    ∧ (specParse fsNone fname0 c3Log).map (fun r => r.finished) = .ok (-1) :=
  ⟨by decide, by decide⟩

/-- C3 (amended): the main loop dispatches every line index exactly once,
in increasing order — the scan is the left fold of the dispatch over
`range (length)` — so handler lookahead does not advance the main index
and consumed lines are re-matched against the line-pattern rules. -/
theorem C3_theorem : ∀ (data : List PyStr) (s : St),
    scanFrom data 0 s = (List.range data.length).foldlM (fun t k => step data k t) s := by
  intro data s
  unfold scanFrom
  rw [List.range_eq_range']
  have := scanFuel_eq_foldlM data (data.length - 0) 0 s (by omega) (by omega)
  simpa using this
